import Mathlib

/-
  Verification development for the offline threat-analysis pipeline:
  dictionary provider, tokenizer, keyword matcher, chunk analyzer,
  session aggregator, threat scorer, explanation generator and
  orchestrator, embedded as executable Lean definitions.
-/

set_option maxHeartbeats 1000000
set_option linter.unusedVariables false
set_option linter.unnecessarySeqFocus false

namespace ThreatPipeline

/-- Whitespace characters used by tokenization and trimming (the ASCII
whitespace class of the regular expressions in the source). -/
def wsChars : List Char := [' ', '\t', '\n', '\r', '\x0b', '\x0c']

/-- Decide whether a character is whitespace. -/
def isWs (c : Char) : Bool := wsChars.contains c

/-- Punctuation characters removed by the tokenizer. -/
def punctuationChars : List Char :=
  ['.', ',', '!', '?', ';', ':', '(', ')', '[', ']', '\x7b', '\x7d', '\x27', '\x22']

/-- Pairs of corresponding upper and lower case basic Latin letters. -/
def asciiLowerPairs : List (Char × Char) :=
  [('A', 'a'), ('B', 'b'), ('C', 'c'), ('D', 'd'), ('E', 'e'), ('F', 'f'), ('G', 'g'),
   ('H', 'h'), ('I', 'i'), ('J', 'j'), ('K', 'k'), ('L', 'l'), ('M', 'm'), ('N', 'n'),
   ('O', 'o'), ('P', 'p'), ('Q', 'q'), ('R', 'r'), ('S', 's'), ('T', 't'), ('U', 'u'),
   ('V', 'v'), ('W', 'w'), ('X', 'x'), ('Y', 'y'), ('Z', 'z')]

/-- Lower-casing of one character, restricted to basic Latin letters: the only
case-bearing script appearing in the dictionaries and language keys (the spec
notes case folding is only meaningful for Latin-script text). -/
def charLower (c : Char) : Char :=
  ((asciiLowerPairs.find? (fun p => p.1 = c)).map Prod.snd).getD c

/-- Model of the source lower-casing of a whole string. -/
def lowerStr (s : String) : String := ⟨s.data.map charLower⟩

/-- Remove leading and trailing whitespace. -/
def trimChars (l : List Char) : List Char :=
  ((l.dropWhile isWs).reverse.dropWhile isWs).reverse

/-- Normalization for matching: lowercase then trim. -/
def normalizeText (s : String) : String := ⟨trimChars (lowerStr s).data⟩

/-- Split a character list on whitespace runs, dropping empty tokens; the
accumulator holds the current token reversed. -/
def splitWsAux : List Char → List Char → List (List Char)
  | [], acc => if acc = [] then [] else [acc.reverse]
  | c :: rest, acc =>
    if isWs c then
      if acc = [] then splitWsAux rest [] else acc.reverse :: splitWsAux rest []
    else splitWsAux rest (c :: acc)

/-- Tokenizer: replace punctuation by spaces, split on whitespace runs, drop
empty tokens. -/
def tokenizeText (text : String) : List String :=
  let cleaned := text.data.map (fun c => if punctuationChars.contains c then ' ' else c)
  (splitWsAux cleaned []).map (fun l => ⟨l⟩)

/-- The closed set of threat indicator categories. -/
inductive ThreatCategory
  | violent_actions
  | weapons
  | events
  | targets
  | urgency
deriving DecidableEq

/-- A per-language dictionary: one ordered keyword list per category. -/
structure ThreatDictionary where
  violent_actions : List String
  weapons : List String
  events : List String
  targets : List String
  urgency : List String
deriving DecidableEq

/-- Look up the keyword list of one category. -/
def ThreatDictionary.get (d : ThreatDictionary) : ThreatCategory → List String
  | .violent_actions => d.violent_actions
  | .weapons => d.weapons
  | .events => d.events
  | .targets => d.targets
  | .urgency => d.urgency

/-- The Hindi threat dictionary. -/
def hindiDictionary : ThreatDictionary where
  violent_actions :=
    ["मारना", "हमला", "धमाका", "विस्फोट", "हत्या",
     "मार", "तोड़", "नष्ट", "खत्म", "ध्वस्त",
     "आक्रमण", "प्रहार", "वार", "गोली", "फायर"]
  weapons :=
    ["बम", "बंदूक", "हथियार", "गोला", "विस्फोटक",
     "पिस्तौल", "राइफल", "ग्रेनेड", "बारूद", "गोली",
     "एके-47", "आरडीएक्स", "तोप", "मिसाइल"]
  events :=
    ["विस्फोट", "हमला", "घटना", "धमाका", "आतंक",
     "हमले", "ब्लास्ट", "फायरिंग", "गोलीबारी", "संघर्ष",
     "युद्ध", "लड़ाई", "झड़प"]
  targets :=
    ["सेना", "पुलिस", "कैंप", "थाना", "चौकी",
     "बेस", "स्टेशन", "मुख्यालय", "सरकार", "मंत्री",
     "अधिकारी", "जवान", "सैनिक", "फौज"]
  urgency :=
    ["अभी", "जल्दी", "तुरंत", "फौरन", "आज",
     "अब", "शीघ्र", "तत्काल", "इसी वक्त"]

/-- The Urdu threat dictionary. -/
def urduDictionary : ThreatDictionary where
  violent_actions :=
    ["قتل", "مار", "حملہ", "دھماکہ", "تباہی",
     "ختم", "توڑ", "نقصان", "ضرب", "وار",
     "فائر", "گولی", "حملہ کرنا", "مارنا"]
  weapons :=
    ["بم", "بندوق", "ہتھیار", "گولہ", "دھماکہ خیز",
     "پستول", "رائفل", "گرینیڈ", "بارود", "گولی",
     "اے کے 47", "آر ڈی ایکس", "توپ", "میزائل"]
  events :=
    ["دھماکہ", "حملہ", "واقعہ", "ہنگامہ", "دہشت",
     "بلاسٹ", "فائرنگ", "گولی باری", "تصادم",
     "جنگ", "لڑائی", "جھڑپ"]
  targets :=
    ["فوج", "پولیس", "کیمپ", "تھانہ", "چوکی",
     "بیس", "اسٹیشن", "ہیڈکوارٹر", "حکومت", "وزیر",
     "افسر", "جوان", "سپاہی", "فوجی"]
  urgency :=
    ["ابھی", "جلدی", "فوری", "فوراً", "آج",
     "اب", "تیزی سے", "فی الفور", "اسی وقت"]

/-- The Kashmiri threat dictionary. -/
def kashmiriDictionary : ThreatDictionary where
  violent_actions :=
    ["مارُن", "حملہ", "دھماکہ", "تباہی", "ختم",
     "توڑ", "نقصان", "وار", "فائر", "گولی",
     "حملہ کرُن", "مار ڈالُن"]
  weapons :=
    ["بم", "بندوق", "ہتھیار", "گولہ", "دھماکہ خیز",
     "پستول", "رائفل", "گرینیڈ", "بارود", "گولی",
     "اے کے", "آر ڈی ایکس"]
  events :=
    ["دھماکہ", "حملہ", "واقعہ", "ہنگامہ", "دہشت",
     "بلاسٹ", "فائرنگ", "گولی باری", "تصادم",
     "جنگ", "لڑائی"]
  targets :=
    ["فوج", "پولیس", "کیمپ", "تھانہ", "چوکی",
     "بیس", "اسٹیشن", "حکومت", "افسر", "جوان",
     "سپاہی", "فوجی"]
  urgency :=
    ["ابھی", "جلدی", "فوری", "فوراً", "آج",
     "اب", "تیزی", "اسی وقت"]

/-- The English (base language) threat dictionary. -/
def englishDictionary : ThreatDictionary where
  violent_actions :=
    ["kill", "attack", "strike", "assault", "destroy",
     "eliminate", "murder", "shoot", "fire", "hit",
     "blow up", "detonate", "explode", "raid", "ambush",
     "target", "neutralize", "execute"]
  weapons :=
    ["bomb", "gun", "weapon", "explosive", "grenade",
     "pistol", "rifle", "ak-47", "ak47", "firearm",
     "ammunition", "bullet", "rdx", "ied", "missile",
     "rocket", "launcher", "artillery", "mine"]
  events :=
    ["blast", "explosion", "attack", "incident", "strike",
     "bombing", "shooting", "firing", "gunfire", "clash",
     "encounter", "operation", "raid", "ambush", "assault",
     "terror", "terrorism", "militant"]
  targets :=
    ["army", "military", "police", "camp", "base",
     "station", "post", "checkpoint", "headquarters", "hq",
     "government", "minister", "officer", "soldier", "troop",
     "force", "security", "patrol", "convoy"]
  urgency :=
    ["now", "immediately", "urgent", "asap", "today",
     "tonight", "soon", "quick", "fast", "hurry",
     "emergency", "critical", "priority"]

/-- The keyed dictionary configuration. -/
def THREAT_DICTIONARIES (language : String) : Option ThreatDictionary :=
  if language = "hindi" then some hindiDictionary
  else if language = "urdu" then some urduDictionary
  else if language = "kashmiri" then some kashmiriDictionary
  else if language = "english" then some englishDictionary
  else none

/-- Resolve the dictionary for a language, falling back to English. -/
def getThreatDictionary (language : String) : ThreatDictionary :=
  (THREAT_DICTIONARIES (lowerStr language)).getD englishDictionary

/-- All categories, in the fixed deterministic iteration order. -/
def getThreatCategories : List ThreatCategory :=
  [.violent_actions, .weapons, .events, .targets, .urgency]

/-- One keyword match, carrying the dictionary form of the matched word, its
category, the language tag, and a bounded context window. -/
structure ThreatMatch where
  chunkId : String
  word : String
  category : ThreatCategory
  language : String
  timestamp : Rat
  context : Option String
deriving DecidableEq

/-- Context window: up to contextSize tokens before and after the token at the
given index, joined by single spaces (the source default size is 5). -/
def getContext (tokens : List String) (index : Nat) (contextSize : Nat) : String :=
  let start := index - contextSize
  let stop := min tokens.length (index + contextSize + 1)
  String.intercalate " " ((tokens.drop start).take (stop - start))

/-- The matches emitted for a single token occurrence: for each category in
order, the first dictionary entry whose normalization equals the normalized
token, if any. -/
def tokenMatchesAt (dictionary : ThreatDictionary) (language : String)
    (tokens : List String) (index : Nat) (token : String) : List ThreatMatch :=
  let normalizedToken := normalizeText token
  getThreatCategories.filterMap (fun category =>
    ((dictionary.get category).find? (fun word => normalizeText word = normalizedToken)).map
      (fun matchedWord =>
        { chunkId := ""
          word := matchedWord
          category := category
          language := language
          timestamp := 0
          context := some (getContext tokens index 5) }))

/-- Keyword matcher: scan every token of the text against the dictionary
resolved for the language. -/
def matchKeywords (text : String) (language : String) : List ThreatMatch :=
  let dictionary := getThreatDictionary language
  let tokens := tokenizeText text
  tokens.enum.flatMap (fun p => tokenMatchesAt dictionary language tokens p.1 p.2)

/-- An external transcript segment, produced by the speech-to-text
collaborator. -/
structure TranscriptChunk where
  chunkId : String
  text : String
  language : String
  confidence : Rat
  startTime : Rat
  duration : Rat
deriving DecidableEq

/-- Per-segment analysis result. -/
structure ChunkThreatAnalysis where
  chunkId : String
  matchList : List ThreatMatch
  threatScore : Nat
  hasThreats : Bool
deriving DecidableEq

/-- Category weights local to the chunk scorer. -/
def chunkCategoryWeights : ThreatCategory → Nat
  | .violent_actions => 2
  | .weapons => 3
  | .events => 2
  | .targets => 2
  | .urgency => 1

/-- Chunk-level threat score: the sum of the category weights of the matches. -/
def calculateChunkThreatScore (matchList : List ThreatMatch) : Nat :=
  if matchList.length = 0 then 0
  else matchList.foldl (fun score m => score + chunkCategoryWeights m.category) 0

/-- Chunk analyzer: match the source text in the segment language, and, when a
non-empty translation is available and the segment language is not English,
additionally match the translation against the English dictionary, tagging
those matches with a distinct language marker. -/
def detectThreatsInChunk (chunk : TranscriptChunk) (sourceText : String)
    (translatedText : Option String) : ChunkThreatAnalysis :=
  let sourceMatches := (matchKeywords sourceText chunk.language).map
    (fun m => { m with chunkId := chunk.chunkId, timestamp := chunk.startTime })
  let translatedMatches :=
    match translatedText with
    | some t =>
      if t ≠ "" ∧ chunk.language ≠ "english" then
        (matchKeywords t "english").map
          (fun m => { m with chunkId := chunk.chunkId, timestamp := chunk.startTime,
                             language := "english (translated)" })
      else []
    | none => []
  let matchList := sourceMatches ++ translatedMatches
  { chunkId := chunk.chunkId
    matchList := matchList
    threatScore := calculateChunkThreatScore matchList
    hasThreats := decide (matchList.length > 0) }

/-- Per-category match counts. -/
structure CategoryCounts where
  violent_actions : Nat
  weapons : Nat
  events : Nat
  targets : Nat
  urgency : Nat
deriving DecidableEq

/-- Look up the count of one category. -/
def CategoryCounts.get (c : CategoryCounts) : ThreatCategory → Nat
  | .violent_actions => c.violent_actions
  | .weapons => c.weapons
  | .events => c.events
  | .targets => c.targets
  | .urgency => c.urgency

/-- Increment the count of one category. -/
def CategoryCounts.inc (c : CategoryCounts) : ThreatCategory → CategoryCounts
  | .violent_actions => { c with violent_actions := c.violent_actions + 1 }
  | .weapons => { c with weapons := c.weapons + 1 }
  | .events => { c with events := c.events + 1 }
  | .targets => { c with targets := c.targets + 1 }
  | .urgency => { c with urgency := c.urgency + 1 }

/-- The all-zero counts. -/
def CategoryCounts.zero : CategoryCounts := ⟨0, 0, 0, 0, 0⟩

/-- Insertion into an insertion-ordered set of strings: append when absent. -/
def setAdd (s : List String) (w : String) : List String :=
  if w ∈ s then s else s ++ [w]

/-- Session-level aggregate of all chunk analyses. -/
structure SessionAggregate where
  totalMatches : Nat
  categoryBreakdown : CategoryCounts
  uniqueWords : List String
  chunksInvolved : Nat
  allMatches : List ThreatMatch
deriving DecidableEq

/-- Mutable aggregation state threaded through the fold. -/
structure AggState where
  categoryBreakdown : CategoryCounts
  uniqueWords : List String
  chunksInvolved : Nat
  allMatches : List ThreatMatch
deriving DecidableEq

/-- Fold one match into the aggregation state. -/
def aggAddMatch (st : AggState) (m : ThreatMatch) : AggState :=
  { categoryBreakdown := st.categoryBreakdown.inc m.category
    uniqueWords := setAdd st.uniqueWords (lowerStr m.word)
    chunksInvolved := st.chunksInvolved
    allMatches := st.allMatches ++ [m] }

/-- Fold one chunk analysis into the aggregation state. -/
def aggAddChunk (st : AggState) (analysis : ChunkThreatAnalysis) : AggState :=
  let st :=
    if analysis.hasThreats then { st with chunksInvolved := st.chunksInvolved + 1 } else st
  analysis.matchList.foldl aggAddMatch st

/-- Session aggregator: a pure fold over all chunk analyses. -/
def aggregateSessionMatches (chunkAnalyses : List ChunkThreatAnalysis) : SessionAggregate :=
  let r := chunkAnalyses.foldl aggAddChunk ⟨CategoryCounts.zero, [], 0, []⟩
  { totalMatches := r.allMatches.length
    categoryBreakdown := r.categoryBreakdown
    uniqueWords := r.uniqueWords
    chunksInvolved := r.chunksInvolved
    allMatches := r.allMatches }

/-- Analyze every chunk of a session, augmenting with its translation when the
translation map has one. -/
def detectThreatsInSession (transcriptChunks : List TranscriptChunk)
    (translationMap : String → Option String) : List ChunkThreatAnalysis :=
  transcriptChunks.map
    (fun chunk => detectThreatsInChunk chunk chunk.text (translationMap chunk.chunkId))

/-- The three-band severity classification. -/
inductive ThreatSeverity
  | SAFE
  | SUSPICIOUS
  | HIGH_RISK
deriving DecidableEq

/-- A severity band with inclusive bounds; an absent upper bound models the
unbounded top band. -/
structure SeverityBand where
  min : Nat
  max : Option Nat
deriving DecidableEq

/-- Threshold configuration of the SAFE band. -/
def SEVERITY_THRESHOLDS_SAFE : SeverityBand := ⟨0, some 2⟩

/-- Threshold configuration of the SUSPICIOUS band. -/
def SEVERITY_THRESHOLDS_SUSPICIOUS : SeverityBand := ⟨3, some 5⟩

/-- Threshold configuration of the HIGH_RISK band. -/
def SEVERITY_THRESHOLDS_HIGH_RISK : SeverityBand := ⟨6, none⟩

/-- Category weights of the session scorer. -/
def CATEGORY_WEIGHTS : ThreatCategory → Nat
  | .violent_actions => 2
  | .weapons => 3
  | .events => 2
  | .targets => 2
  | .urgency => 1

/-- Map a score to its severity band: highest qualifying band wins. -/
def getSeverity (score : Nat) : ThreatSeverity :=
  if score ≥ SEVERITY_THRESHOLDS_HIGH_RISK.min then .HIGH_RISK
  else if score ≥ SEVERITY_THRESHOLDS_SUSPICIOUS.min then .SUSPICIOUS
  else .SAFE

/-- Weighted contribution per category plus the combined bonus term. -/
structure ThreatBreakdown where
  violent_actions : Nat
  weapons : Nat
  events : Nat
  targets : Nat
  urgency : Nat
  repetition_bonus : Nat
deriving DecidableEq

/-- The scorer output: numeric score, severity, and breakdown. -/
structure ThreatScore where
  score : Nat
  severity : ThreatSeverity
  breakdown : ThreatBreakdown
deriving DecidableEq

/-- Threat scorer: weighted base score per category, a repetition bonus and a
spread bonus accumulated into the combined bonus field, then severity. The
first argument is accepted and ignored, as in the source. -/
def calculateThreatScore (chunkAnalyses : List ChunkThreatAnalysis)
    (categoryBreakdown : CategoryCounts) (uniqueWords : List String)
    (chunksInvolved : Nat) : ThreatScore :=
  let weighted := fun cat => categoryBreakdown.get cat * CATEGORY_WEIGHTS cat
  let baseScore := weighted .violent_actions + weighted .weapons + weighted .events +
    weighted .targets + weighted .urgency
  let totalMatches := categoryBreakdown.violent_actions + categoryBreakdown.weapons +
    categoryBreakdown.events + categoryBreakdown.targets + categoryBreakdown.urgency
  let uniqueWordCount := uniqueWords.length
  let repetitionFactor :=
    if uniqueWordCount > 0 ∧ totalMatches > uniqueWordCount then
      (totalMatches - uniqueWordCount) / 2
    else 0
  let spreadBonus := if chunksInvolved > 2 then chunksInvolved / 2 else 0
  let score := baseScore + repetitionFactor + spreadBonus
  { score := score
    severity := getSeverity score
    breakdown :=
      { violent_actions := weighted .violent_actions
        weapons := weighted .weapons
        events := weighted .events
        targets := weighted .targets
        urgency := weighted .urgency
        repetition_bonus := repetitionFactor + spreadBonus } }

/-- One grouped triggered-keyword summary. -/
structure TriggeredKeyword where
  word : String
  category : String
  count : Nat
deriving DecidableEq

/-- The explanation output. -/
structure ThreatExplanation where
  summary : String
  details : List String
  triggeredKeywords : List TriggeredKeyword
  categoryExplanations : List String
deriving DecidableEq

/-- Display name of a category. -/
def formatCategory : ThreatCategory → String
  | .violent_actions => "Violent action"
  | .weapons => "Weapon"
  | .events => "Event"
  | .targets => "Target"
  | .urgency => "Urgency"

/-- Summary sentence: fixed reassurance for SAFE, templated otherwise. -/
def generateSummary (severity : ThreatSeverity) (score : Nat) (matchCount : Nat)
    (chunksInvolved : Nat) : String :=
  if severity = .SAFE then
    "Session classified as SAFE. No significant threat indicators detected."
  else
    let severityText := if severity = .HIGH_RISK then "HIGH RISK" else "SUSPICIOUS"
    let plural := if matchCount = 1 then "keyword" else "keywords"
    let chunkText := if chunksInvolved = 1 then "segment" else "segments"
    "Session flagged as " ++ severityText ++ " (score: " ++ toString score ++ ") due to " ++
      toString matchCount ++ " threat-related " ++ plural ++ " detected across " ++
      toString chunksInvolved ++ " audio " ++ chunkText ++ "."

/-- Increment the count of a key in the insertion-ordered keyword-count map,
or append a fresh entry. -/
def bumpKeyword : List (String × String × Nat) → String → String → List (String × String × Nat)
  | [], key, category => [(key, category, 1)]
  | (k, c, n) :: rest, key, category =>
    if k = key then (k, c, n + 1) :: rest
    else (k, c, n) :: bumpKeyword rest key category

/-- Group matches by lowercased word, keeping the category and counting
occurrences, in first-seen order. -/
def buildKeywordCounts (matchList : List ThreatMatch) : List (String × String × Nat) :=
  matchList.foldl (fun acc m => bumpKeyword acc (lowerStr m.word) (formatCategory m.category)) []

/-- Insert into a descending-by-count list, after all entries of greater or
equal count. -/
def insertByCountDesc (x : TriggeredKeyword) :
    List TriggeredKeyword → List TriggeredKeyword
  | [] => [x]
  | y :: ys => if y.count < x.count then x :: y :: ys else y :: insertByCountDesc x ys

/-- Stable sort descending by count, modelling the stable sort of the source
with comparator b.count - a.count. -/
def sortByCountDesc (l : List TriggeredKeyword) : List TriggeredKeyword :=
  l.foldl (fun acc x => insertByCountDesc x acc) []

/-- First-occurrence deduplication keeping insertion order. -/
def orderedDedup (seen : List String) : List String → List String
  | [] => []
  | x :: xs => if x ∈ seen then orderedDedup seen xs else x :: orderedDedup (x :: seen) xs

/-- Detail line for a category with a nonzero count: up to 5 distinct words
plus a truncation suffix. -/
def generateCategoryExplanation (category : ThreatCategory) (count : Nat)
    (matchList : List ThreatMatch) : String :=
  let categoryName := formatCategory category
  let uniqueWords := orderedDedup [] (matchList.map (fun m => m.word))
  let wordList :=
    String.intercalate ", " ((uniqueWords.take 5).map (fun w => "\x22" ++ w ++ "\x22"))
  if count = 1 then
    categoryName ++ " keyword detected: " ++ wordList
  else
    let more :=
      if uniqueWords.length > 5 then " and " ++ toString (uniqueWords.length - 5) ++ " more"
      else ""
    toString count ++ " " ++ categoryName ++ " keywords detected: " ++ wordList ++ more

/-- Collect up to maxExamples context excerpts, skipping absent or empty
contexts and deduplicating by the normalized context string. -/
def getContextExamplesAux (maxExamples : Nat) (seen : List String)
    (examples : List String) : List ThreatMatch → List String
  | [] => examples
  | m :: rest =>
    if examples.length ≥ maxExamples then examples
    else
      match m.context with
      | none => getContextExamplesAux maxExamples seen examples rest
      | some ctx =>
        if ctx = "" then getContextExamplesAux maxExamples seen examples rest
        else
          let normalized := normalizeText ctx
          if normalized ∈ seen then getContextExamplesAux maxExamples seen examples rest
          else getContextExamplesAux maxExamples (normalized :: seen) (examples ++ [ctx]) rest

/-- Context excerpts of the matches, deduplicated, in first-seen order. -/
def getContextExamples (matchList : List ThreatMatch) (maxExamples : Nat) : List String :=
  getContextExamplesAux maxExamples [] [] matchList

/-- Explanation generator: summary, grouped triggered keywords sorted
descending by count, per-category detail lines for nonzero categories, a
spread note, and up to 3 context examples. It reads the score and severity
without recomputing them. -/
def generateThreatExplanation (severity : ThreatSeverity) (score : Nat)
    (matchList : List ThreatMatch) (categoryBreakdown : CategoryCounts)
    (chunksInvolved : Nat) : ThreatExplanation :=
  let summary := generateSummary severity score matchList.length chunksInvolved
  let keywordCounts := buildKeywordCounts matchList
  let triggeredKeywords :=
    sortByCountDesc (keywordCounts.map (fun e => ⟨e.1, e.2.1, e.2.2⟩))
  let categoryExplanations := getThreatCategories.filterMap (fun category =>
    if categoryBreakdown.get category > 0 then
      some (generateCategoryExplanation category (categoryBreakdown.get category)
        (matchList.filter (fun m => m.category = category)))
    else none)
  let details := categoryExplanations
  let details :=
    if chunksInvolved > 1 then
      details ++ ["Threats detected across " ++ toString chunksInvolved ++ " audio segments"]
    else details
  let contextExamples := getContextExamples matchList 3
  let details :=
    if contextExamples.length > 0 then
      (details ++ ["Context examples:"]) ++
        contextExamples.map (fun e => "  • \x22" ++ e ++ "\x22")
    else details
  { summary := summary
    details := details
    triggeredKeywords := triggeredKeywords
    categoryExplanations := categoryExplanations }

/-- One stored translation row, as fetched for a session. -/
structure TranslationRow where
  chunkId : String
  translatedText : String
deriving DecidableEq

/-- The translation lookup the orchestrator builds: later rows with the same
chunk identifier overwrite earlier ones. -/
def translationMapGet (translations : List TranslationRow) (chunkId : String) :
    Option String :=
  translations.foldl
    (fun acc t => if t.chunkId = chunkId then some t.translatedText else acc) none

/-- The final persisted analysis record, with the fields the orchestrator
assembles. -/
structure ThreatAnalysisRecord where
  analysisId : String
  sessionId : String
  threatScore : Nat
  severity : ThreatSeverity
  triggeredKeywords : List TriggeredKeyword
  categoryBreakdown : CategoryCounts
  explanationText : String
  chunksInvolved : Nat
  createdAt : Nat
deriving DecidableEq

/-- Persist an analysis record: a keyed put that replaces an existing record
with the same analysis identifier or appends a new one. -/
def storeThreatAnalysis (analysis : ThreatAnalysisRecord)
    (store : List ThreatAnalysisRecord) : List ThreatAnalysisRecord :=
  if store.any (fun r => r.analysisId = analysis.analysisId) then
    store.map (fun r => if r.analysisId = analysis.analysisId then analysis else r)
  else store ++ [analysis]

/-- The data the orchestrator fetches from the storage collaborator, plus the
clock value used for the analysis identifier and timestamp. -/
structure OrchestratorEnv where
  transcripts : List TranscriptChunk
  translations : List TranslationRow
  now : Nat
deriving DecidableEq

/-- Orchestrator: fetch transcripts, fail when none exist, otherwise build the
translation lookup, analyze each chunk, aggregate, score, explain, assemble
the record and persist it. Returns the outcome and the resulting store. -/
def analyzeSessionThreats (sessionId : String) (env : OrchestratorEnv)
    (store : List ThreatAnalysisRecord) :
    Except String ThreatAnalysisRecord × List ThreatAnalysisRecord :=
  if env.transcripts.length = 0 then
    (Except.error "No transcripts found for this session", store)
  else
    let chunkAnalyses := detectThreatsInSession env.transcripts (translationMapGet env.translations)
    let aggregated := aggregateSessionMatches chunkAnalyses
    let threatScore := calculateThreatScore chunkAnalyses aggregated.categoryBreakdown
      aggregated.uniqueWords aggregated.chunksInvolved
    let explanation := generateThreatExplanation threatScore.severity threatScore.score
      aggregated.allMatches aggregated.categoryBreakdown aggregated.chunksInvolved
    let analysisRecord : ThreatAnalysisRecord :=
      { analysisId := "analysis-" ++ sessionId ++ "-" ++ toString env.now
        sessionId := sessionId
        threatScore := threatScore.score
        severity := threatScore.severity
        triggeredKeywords := explanation.triggeredKeywords
        categoryBreakdown := aggregated.categoryBreakdown
        explanationText := explanation.summary
        chunksInvolved := aggregated.chunksInvolved
        createdAt := env.now }
    (Except.ok analysisRecord, storeThreatAnalysis analysisRecord store)

/-
  Auxiliary definitions used by the theorems: a numeric rank for severities,
  concrete demonstration inputs, and the sum of the stored breakdown values
  of a record.
-/

/-- Numeric rank of a severity, for stating monotonicity. -/
def severityRank : ThreatSeverity → Nat
  | .SAFE => 0
  | .SUSPICIOUS => 1
  | .HIGH_RISK => 2

/-- Sum of the per-category values stored in a counts record. -/
def breakdownValuesSum (c : CategoryCounts) : Nat :=
  c.violent_actions + c.weapons + c.events + c.targets + c.urgency

/-- A demonstration transcript chunk containing one weapons keyword. -/
def demoChunk : TranscriptChunk := ⟨"chunk-1", "bomb", "english", 9 / 10, 0, 0⟩

/-- A demonstration environment with a single transcript chunk. -/
def demoEnv : OrchestratorEnv := ⟨[demoChunk], [], 0⟩

/-- An environment whose transcript fetch returns no segments. -/
def emptyEnv : OrchestratorEnv := ⟨[], [], 0⟩

/-- A demonstration chunk whose text has no dictionary hits. -/
def safeChunk : TranscriptChunk := ⟨"chunk-2", "hello friend", "english", 9 / 10, 0, 0⟩

/-- A demonstration chunk containing the word attack. -/
def attackChunk : TranscriptChunk := ⟨"chunk-1", "attack", "english", 9 / 10, 0, 0⟩

/-- The match the matcher emits for the single word bomb. -/
def bombMatch : ThreatMatch := ⟨"", "bomb", .weapons, "english", 0, some "bomb"⟩

/-- The bomb match after the chunk analyzer fills the chunk fields. -/
def bombChunkMatch : ThreatMatch := ⟨"chunk-1", "bomb", .weapons, "english", 0, some "bomb"⟩

/-- The first match the matcher emits for the single word attack. -/
def attackTokenMatch : ThreatMatch := ⟨"", "attack", .violent_actions, "english", 0, some "attack"⟩


/-
  Supporting lemmas.
-/

theorem getSeverity_eq (s : Nat) :
    getSeverity s =
      if 6 ≤ s then .HIGH_RISK else if 3 ≤ s then .SUSPICIOUS else .SAFE := rfl

theorem foldl_weight_sum (l : List ThreatMatch) (n : Nat) :
    l.foldl (fun score m => score + chunkCategoryWeights m.category) n =
      n + (l.map (fun m => chunkCategoryWeights m.category)).sum := by
  induction l generalizing n with
  | nil => simp
  | cons m rest ih => simp [ih, Nat.add_assoc]

theorem calculateChunkThreatScore_eq_sum (l : List ThreatMatch) :
    calculateChunkThreatScore l = (l.map (fun m => chunkCategoryWeights m.category)).sum := by
  unfold calculateChunkThreatScore
  split
  · rename_i h
    have : l = [] := List.length_eq_zero.mp h
    simp [this]
  · simpa using foldl_weight_sum l 0

theorem detectThreatsInChunk_threatScore (chunk : TranscriptChunk) (sourceText : String)
    (translatedText : Option String) :
    (detectThreatsInChunk chunk sourceText translatedText).threatScore =
      calculateChunkThreatScore
        (detectThreatsInChunk chunk sourceText translatedText).matchList := rfl

theorem detectThreatsInChunk_hasThreats (chunk : TranscriptChunk) (sourceText : String)
    (translatedText : Option String) :
    (detectThreatsInChunk chunk sourceText translatedText).hasThreats =
      decide ((detectThreatsInChunk chunk sourceText translatedText).matchList.length > 0) := rfl

theorem CategoryCounts.get_inc (c : CategoryCounts) (x cat : ThreatCategory) :
    (c.inc x).get cat = c.get cat + (if x = cat then 1 else 0) := by
  cases x <;> cases cat <;> simp [CategoryCounts.inc, CategoryCounts.get]

theorem setAdd_mem (s : List String) (x w : String) :
    w ∈ setAdd s x ↔ w ∈ s ∨ w = x := by
  unfold setAdd
  split
  · rename_i h
    constructor
    · exact fun hw => Or.inl hw
    · rintro (hw | rfl)
      · exact hw
      · exact h
  · simp

theorem setAdd_nodup (s : List String) (x : String) (h : s.Nodup) :
    (setAdd s x).Nodup := by
  unfold setAdd
  split
  · exact h
  · rename_i hx
    simp [List.nodup_append, h, hx]

theorem foldl_aggAddMatch_counts (ms : List ThreatMatch) (st : AggState) (cat : ThreatCategory) :
    (ms.foldl aggAddMatch st).categoryBreakdown.get cat =
      st.categoryBreakdown.get cat + (ms.filter (fun m => m.category = cat)).length := by
  induction ms generalizing st with
  | nil => simp
  | cons m rest ih =>
    simp only [List.foldl_cons, ih, List.filter_cons]
    rw [show (aggAddMatch st m).categoryBreakdown = st.categoryBreakdown.inc m.category from rfl]
    rw [CategoryCounts.get_inc]
    split <;> rename_i h <;> simp_all <;> omega

theorem foldl_aggAddMatch_unique_mem (ms : List ThreatMatch) (st : AggState) (w : String) :
    w ∈ (ms.foldl aggAddMatch st).uniqueWords ↔
      w ∈ st.uniqueWords ∨ w ∈ ms.map (fun m => lowerStr m.word) := by
  induction ms generalizing st with
  | nil => simp
  | cons m rest ih =>
    simp only [List.foldl_cons, ih, List.map_cons, List.mem_cons]
    rw [show (aggAddMatch st m).uniqueWords = setAdd st.uniqueWords (lowerStr m.word) from rfl]
    rw [setAdd_mem]
    tauto

theorem foldl_aggAddMatch_unique_nodup (ms : List ThreatMatch) (st : AggState)
    (h : st.uniqueWords.Nodup) : (ms.foldl aggAddMatch st).uniqueWords.Nodup := by
  induction ms generalizing st with
  | nil => exact h
  | cons m rest ih =>
    exact ih _ (setAdd_nodup _ _ h)

theorem foldl_aggAddMatch_chunks (ms : List ThreatMatch) (st : AggState) :
    (ms.foldl aggAddMatch st).chunksInvolved = st.chunksInvolved := by
  induction ms generalizing st with
  | nil => rfl
  | cons m rest ih => simp [ih, aggAddMatch]

theorem foldl_aggAddMatch_all (ms : List ThreatMatch) (st : AggState) :
    (ms.foldl aggAddMatch st).allMatches = st.allMatches ++ ms := by
  induction ms generalizing st with
  | nil => simp
  | cons m rest ih => simp [ih, aggAddMatch]

theorem foldl_aggAddChunk_counts (l : List ChunkThreatAnalysis) (st : AggState)
    (cat : ThreatCategory) :
    (l.foldl aggAddChunk st).categoryBreakdown.get cat =
      st.categoryBreakdown.get cat +
        ((l.flatMap (fun a => a.matchList)).filter (fun m => m.category = cat)).length := by
  induction l generalizing st with
  | nil => simp
  | cons a rest ih =>
    simp only [List.foldl_cons, ih, List.flatMap_cons, List.filter_append, List.length_append]
    have hstep : (aggAddChunk st a).categoryBreakdown.get cat =
        st.categoryBreakdown.get cat +
          ((a.matchList.filter (fun m => m.category = cat)).length) := by
      unfold aggAddChunk
      split <;> rw [foldl_aggAddMatch_counts]
    omega

theorem foldl_aggAddChunk_unique_mem (l : List ChunkThreatAnalysis) (st : AggState)
    (w : String) :
    w ∈ (l.foldl aggAddChunk st).uniqueWords ↔
      w ∈ st.uniqueWords ∨
        w ∈ (l.flatMap (fun a => a.matchList)).map (fun m => lowerStr m.word) := by
  induction l generalizing st with
  | nil => simp
  | cons a rest ih =>
    simp only [List.foldl_cons, ih, List.flatMap_cons, List.map_append, List.mem_append]
    have hstep : ∀ v, v ∈ (aggAddChunk st a).uniqueWords ↔
        v ∈ st.uniqueWords ∨ v ∈ a.matchList.map (fun m => lowerStr m.word) := by
      intro v
      unfold aggAddChunk
      split <;> rw [foldl_aggAddMatch_unique_mem]
    rw [hstep]
    tauto

theorem foldl_aggAddChunk_unique_nodup (l : List ChunkThreatAnalysis) (st : AggState)
    (h : st.uniqueWords.Nodup) : (l.foldl aggAddChunk st).uniqueWords.Nodup := by
  induction l generalizing st with
  | nil => exact h
  | cons a rest ih =>
    apply ih
    unfold aggAddChunk
    split <;> exact foldl_aggAddMatch_unique_nodup _ _ h

theorem foldl_aggAddChunk_chunks (l : List ChunkThreatAnalysis) (st : AggState) :
    (l.foldl aggAddChunk st).chunksInvolved =
      st.chunksInvolved + (l.filter (fun a => a.hasThreats)).length := by
  induction l generalizing st with
  | nil => simp
  | cons a rest ih =>
    simp only [List.foldl_cons, ih, List.filter_cons]
    have hstep : (aggAddChunk st a).chunksInvolved =
        st.chunksInvolved + (if a.hasThreats then 1 else 0) := by
      unfold aggAddChunk
      split <;> rename_i h <;> rw [foldl_aggAddMatch_chunks] <;> simp [h]
    rw [hstep]
    split <;> rename_i h <;> simp [h] <;> omega

theorem foldl_aggAddChunk_all (l : List ChunkThreatAnalysis) (st : AggState) :
    (l.foldl aggAddChunk st).allMatches =
      st.allMatches ++ l.flatMap (fun a => a.matchList) := by
  induction l generalizing st with
  | nil => simp
  | cons a rest ih =>
    simp only [List.foldl_cons, ih, List.flatMap_cons]
    have hstep : (aggAddChunk st a).allMatches = st.allMatches ++ a.matchList := by
      unfold aggAddChunk
      split <;> rw [foldl_aggAddMatch_all]
    rw [hstep, List.append_assoc]

theorem calcScore_weighted_bonus (chunkAnalyses : List ChunkThreatAnalysis)
    (categoryBreakdown : CategoryCounts) (uniqueWords : List String) (chunksInvolved : Nat) :
    (calculateThreatScore chunkAnalyses categoryBreakdown uniqueWords chunksInvolved).score =
      categoryBreakdown.violent_actions * 2 + categoryBreakdown.weapons * 3 +
      categoryBreakdown.events * 2 + categoryBreakdown.targets * 2 +
      categoryBreakdown.urgency * 1 +
      (calculateThreatScore chunkAnalyses categoryBreakdown uniqueWords
        chunksInvolved).breakdown.repetition_bonus := by
  simp only [calculateThreatScore, CategoryCounts.get, CATEGORY_WEIGHTS]
  ring


theorem mem_matchKeywords_dict (text language : String) (m : ThreatMatch)
    (hm : m ∈ matchKeywords text language) :
    m.language = language ∧ ∃ cat, m.word ∈ (getThreatDictionary language).get cat := by
  unfold matchKeywords at hm
  simp only [List.mem_flatMap] at hm
  obtain ⟨p, hp, hm⟩ := hm
  unfold tokenMatchesAt at hm
  simp only [List.mem_filterMap] at hm
  obtain ⟨cat, hcat, hsome⟩ := hm
  rw [Option.map_eq_some'] at hsome
  obtain ⟨w, hfind, rfl⟩ := hsome
  exact ⟨rfl, cat, List.mem_of_find?_eq_some hfind⟩

theorem getThreatDictionary_translated :
    getThreatDictionary "english (translated)" = englishDictionary := rfl

theorem mem_detectChunk_dict (chunk : TranscriptChunk) (sourceText : String)
    (translatedText : Option String) (m : ThreatMatch)
    (hm : m ∈ (detectThreatsInChunk chunk sourceText translatedText).matchList) :
    ∃ cat, m.word ∈ (getThreatDictionary m.language).get cat := by
  unfold detectThreatsInChunk at hm
  simp only [List.mem_append] at hm
  rcases hm with hm | hm
  · simp only [List.mem_map] at hm
    obtain ⟨m0, hm0, rfl⟩ := hm
    obtain ⟨hlang, cat, hw⟩ := mem_matchKeywords_dict _ _ _ hm0
    refine ⟨cat, ?_⟩
    show m0.word ∈ (getThreatDictionary m0.language).get cat
    rw [hlang]
    exact hw
  · rcases translatedText with _ | t
    · simp at hm
    · simp only at hm
      split at hm
      · simp only [List.mem_map] at hm
        obtain ⟨m0, hm0, rfl⟩ := hm
        obtain ⟨_, cat, hw⟩ := mem_matchKeywords_dict _ _ _ hm0
        exact ⟨cat, hw⟩
      · simp at hm

theorem mem_sessionAllMatches_dict (transcripts : List TranscriptChunk)
    (tmap : String → Option String) (m : ThreatMatch)
    (hm : m ∈ (aggregateSessionMatches (detectThreatsInSession transcripts tmap)).allMatches) :
    ∃ cat, m.word ∈ (getThreatDictionary m.language).get cat := by
  have hall : (aggregateSessionMatches (detectThreatsInSession transcripts tmap)).allMatches =
      (detectThreatsInSession transcripts tmap).flatMap (fun a => a.matchList) := by
    show (List.foldl aggAddChunk ⟨CategoryCounts.zero, [], 0, []⟩ _).allMatches = _
    rw [foldl_aggAddChunk_all]
    rfl
  rw [hall] at hm
  simp only [List.mem_flatMap] at hm
  obtain ⟨a, ha, hm⟩ := hm
  unfold detectThreatsInSession at ha
  simp only [List.mem_map] at ha
  obtain ⟨chunk, _, rfl⟩ := ha
  exact mem_detectChunk_dict _ _ _ _ hm

theorem mem_insertByCountDesc (x y : TriggeredKeyword) (l : List TriggeredKeyword) :
    x ∈ insertByCountDesc y l ↔ x = y ∨ x ∈ l := by
  induction l with
  | nil => simp [insertByCountDesc]
  | cons z zs ih =>
    unfold insertByCountDesc
    split
    · simp
    · simp only [List.mem_cons, ih]
      tauto

theorem mem_sortByCountDesc (x : TriggeredKeyword) (l : List TriggeredKeyword)
    (hx : x ∈ sortByCountDesc l) : x ∈ l := by
  unfold sortByCountDesc at hx
  suffices h : ∀ (l : List TriggeredKeyword) (acc : List TriggeredKeyword),
      x ∈ l.foldl (fun acc y => insertByCountDesc y acc) acc → x ∈ acc ∨ x ∈ l by
    rcases h l [] hx with h | h
    · simp at h
    · exact h
  intro l
  induction l with
  | nil => intro acc h; exact Or.inl h
  | cons y ys ih =>
    intro acc h
    rcases ih _ h with h | h
    · rw [mem_insertByCountDesc] at h
      rcases h with h | h
      · exact Or.inr (by simp [h])
      · exact Or.inl h
    · exact Or.inr (List.mem_cons_of_mem _ h)

theorem bumpKeyword_keys (acc : List (String × String × Nat)) (key category : String)
    (e : String × String × Nat) (he : e ∈ bumpKeyword acc key category) :
    e.1 ∈ acc.map (fun x => x.1) ∨ e.1 = key := by
  induction acc with
  | nil =>
    simp [bumpKeyword] at he
    simp [he]
  | cons a rest ih =>
    obtain ⟨k, c, n⟩ := a
    unfold bumpKeyword at he
    split at he
    · rename_i hk
      simp only [List.mem_cons] at he
      rcases he with rfl | he
      · exact Or.inr hk
      · exact Or.inl
          (by simp only [List.map_cons, List.mem_cons]
              exact Or.inr (List.mem_map_of_mem _ he))
    · simp only [List.mem_cons] at he
      rcases he with rfl | he
      · exact Or.inl (by simp)
      · rcases ih he with h | h
        · exact Or.inl (by simp only [List.map_cons, List.mem_cons]; exact Or.inr h)
        · exact Or.inr h

theorem buildKeywordCounts_keys (matchList : List ThreatMatch)
    (e : String × String × Nat) (he : e ∈ buildKeywordCounts matchList) :
    ∃ m ∈ matchList, e.1 = lowerStr m.word := by
  unfold buildKeywordCounts at he
  suffices h : ∀ (l : List ThreatMatch) (acc : List (String × String × Nat)),
      e ∈ l.foldl (fun acc m => bumpKeyword acc (lowerStr m.word) (formatCategory m.category)) acc →
      e.1 ∈ acc.map (fun x => x.1) ∨ ∃ m ∈ l, e.1 = lowerStr m.word by
    rcases h matchList [] he with h | h
    · simp at h
    · exact h
  intro l
  induction l with
  | nil => intro acc h; exact Or.inl (List.mem_map_of_mem _ h)
  | cons m rest ih =>
    intro acc h
    rcases ih _ h with h | h
    · simp only [List.mem_map] at h
      obtain ⟨e2, he2, hkey⟩ := h
      rcases bumpKeyword_keys _ _ _ _ he2 with h2 | h2
      · rw [hkey] at h2
        exact Or.inl h2
      · exact Or.inr ⟨m, List.mem_cons_self _ _, by rw [← hkey]; exact h2⟩
    · obtain ⟨m2, hm2, hkey⟩ := h
      exact Or.inr ⟨m2, List.mem_cons_of_mem _ hm2, hkey⟩

theorem explanation_triggered_key (severity : ThreatSeverity) (score : Nat)
    (matchList : List ThreatMatch) (categoryBreakdown : CategoryCounts) (chunksInvolved : Nat)
    (kw : TriggeredKeyword)
    (hkw : kw ∈ (generateThreatExplanation severity score matchList categoryBreakdown
      chunksInvolved).triggeredKeywords) :
    ∃ m ∈ matchList, kw.word = lowerStr m.word := by
  unfold generateThreatExplanation at hkw
  simp only at hkw
  have hkw2 := mem_sortByCountDesc _ _ hkw
  simp only [List.mem_map] at hkw2
  obtain ⟨e, he, rfl⟩ := hkw2
  obtain ⟨m, hm, hkey⟩ := buildKeywordCounts_keys _ _ he
  exact ⟨m, hm, hkey⟩

theorem asciiLowerPairs_not_ws :
    ∀ p ∈ asciiLowerPairs, isWs p.1 = false ∧ isWs p.2 = false := by decide

theorem isWs_charLower (c : Char) : isWs (charLower c) = isWs c := by
  unfold charLower
  cases hf : asciiLowerPairs.find? (fun p => p.1 = c) with
  | none => rfl
  | some p =>
    have hmem := List.mem_of_find?_eq_some hf
    have hpred := List.find?_some hf
    simp only [decide_eq_true_eq] at hpred
    obtain ⟨h1, h2⟩ := asciiLowerPairs_not_ws p hmem
    simp only [Option.map_some', Option.getD_some]
    rw [h2, ← hpred, h1]

theorem splitWsAux_no_ws (l acc : List Char) (hacc : ∀ c ∈ acc, isWs c = false) :
    ∀ t ∈ splitWsAux l acc, ∀ c ∈ t, isWs c = false := by
  induction l generalizing acc with
  | nil =>
    intro t ht
    unfold splitWsAux at ht
    split at ht
    · simp at ht
    · simp only [List.mem_singleton] at ht
      subst ht
      intro c hc
      exact hacc c (List.mem_reverse.mp hc)
  | cons x rest ih =>
    intro t ht
    unfold splitWsAux at ht
    split at ht
    · rename_i hx
      split at ht
      · exact ih [] (by simp) t ht
      · simp only [List.mem_cons] at ht
        rcases ht with rfl | ht
        · intro c hc
          exact hacc c (List.mem_reverse.mp hc)
        · exact ih [] (by simp) t ht
    · rename_i hx
      refine ih (x :: acc) ?_ t ht
      intro c hc
      rcases List.mem_cons.mp hc with rfl | hc
      · simpa using hx
      · exact hacc c hc

theorem tokenizeText_no_ws (text : String) :
    ∀ t ∈ tokenizeText text, ∀ c ∈ t.data, isWs c = false := by
  intro t ht c hc
  unfold tokenizeText at ht
  simp only [List.mem_map] at ht
  obtain ⟨l, hl, rfl⟩ := ht
  exact splitWsAux_no_ws _ [] (by simp) l hl c hc

theorem trimChars_subset (l : List Char) (c : Char) (hc : c ∈ trimChars l) : c ∈ l := by
  unfold trimChars at hc
  rw [List.mem_reverse] at hc
  have h1 := (List.dropWhile_sublist isWs).mem hc
  rw [List.mem_reverse] at h1
  exact (List.dropWhile_sublist isWs).mem h1

theorem normalizeText_no_ws (s : String) (hs : ∀ c ∈ s.data, isWs c = false) :
    ∀ c ∈ (normalizeText s).data, isWs c = false := by
  intro c hc
  unfold normalizeText at hc
  simp only at hc
  have hc2 := trimChars_subset _ _ hc
  unfold lowerStr at hc2
  simp only [List.mem_map] at hc2
  obtain ⟨c0, hc0, rfl⟩ := hc2
  rw [isWs_charLower]
  exact hs c0 hc0

theorem dictionaries_entry_ws (d : ThreatDictionary)
    (hd : d = hindiDictionary ∨ d = urduDictionary ∨ d = kashmiriDictionary ∨
      d = englishDictionary) (cat : ThreatCategory) (e : String) (he : e ∈ d.get cat) :
    (∀ c ∈ e.data, isWs c = false) ∨ (∃ c ∈ (normalizeText e).data, isWs c = true) := by
  have hdec : ∀ (d : ThreatDictionary),
      (d = hindiDictionary ∨ d = urduDictionary ∨ d = kashmiriDictionary ∨
        d = englishDictionary) →
      ∀ cat, ∀ e ∈ d.get cat,
        (e.data.all (fun c => !isWs c) = true) ∨ ((normalizeText e).data.any isWs = true) := by
    rintro d (rfl | rfl | rfl | rfl) cat e he <;> revert he <;> revert e <;> cases cat <;> decide
  rcases hdec d hd cat e he with h | h
  · left
    intro c hc
    have := List.all_eq_true.mp h c hc
    simpa using this
  · right
    obtain ⟨c, hc, hcw⟩ := List.any_eq_true.mp h
    exact ⟨c, hc, hcw⟩

theorem getThreatDictionary_cases (language : String) :
    getThreatDictionary language = hindiDictionary ∨
    getThreatDictionary language = urduDictionary ∨
    getThreatDictionary language = kashmiriDictionary ∨
    getThreatDictionary language = englishDictionary := by
  unfold getThreatDictionary THREAT_DICTIONARIES
  split
  · exact Or.inl rfl
  · split
    · exact Or.inr (Or.inl rfl)
    · split
      · exact Or.inr (Or.inr (Or.inl rfl))
      · split
        · exact Or.inr (Or.inr (Or.inr rfl))
        · exact Or.inr (Or.inr (Or.inr rfl))

theorem filterMap_filter_category (f : ThreatCategory → Option ThreatMatch)
    (hf : ∀ c m, f c = some m → m.category = c) (cats : List ThreatCategory)
    (hnd : cats.Nodup) (cat : ThreatCategory) (hmem : cat ∈ cats) :
    ((cats.filterMap f).filter (fun m => m.category = cat)).length =
      if (f cat).isSome then 1 else 0 := by
  induction cats with
  | nil => cases hmem
  | cons c cs ih =>
    rw [List.filterMap_cons]
    have hrest0 : cat ∉ cs →
        ((cs.filterMap f).filter (fun m => m.category = cat)).length = 0 := by
      intro hout
      rw [List.length_eq_zero, List.filter_eq_nil_iff]
      intro m hm2
      obtain ⟨c2, hc2, hfc2⟩ := List.mem_filterMap.mp hm2
      have hcat2 := hf c2 m hfc2
      simp only [decide_eq_true_eq]
      intro hcontra
      rw [hcontra] at hcat2
      exact hout (hcat2 ▸ hc2)
    rcases List.mem_cons.mp hmem with rfl | hmem2
    · have hout : cat ∉ cs := (List.nodup_cons.mp hnd).1
      cases hfc : f cat with
      | none => simp [hfc, hrest0 hout]
      | some m =>
        have hcatm := hf _ _ hfc
        simp [hfc, List.filter_cons, hcatm, hrest0 hout]
    · have hne : c ≠ cat := fun h => (List.nodup_cons.mp hnd).1 (h ▸ hmem2)
      cases hfc : f c with
      | none => simpa using ih (List.nodup_cons.mp hnd).2 hmem2
      | some m =>
        have hcatm := hf _ _ hfc
        rw [List.filter_cons]
        have hcond : (decide (m.category = cat)) = false := by
          simp [hcatm, hne]
        simp only [hcond, Bool.false_eq_true, if_false]
        exact ih (List.nodup_cons.mp hnd).2 hmem2

theorem find?_isSome_eq_any (l : List String) (p : String → Bool) :
    (l.find? p).isSome = l.any p := by
  induction l with
  | nil => rfl
  | cons x xs ih =>
    rw [List.find?_cons, List.any_cons]
    cases hx : p x <;> simp [hx, ih]


/-
  Claim theorems.
-/

/-- Claim C2: for every input of the threat scorer (any category counts,
unique-word set and chunk count), the returned score equals the sum of all
fields of the returned breakdown record, with exact integer equality. -/
theorem calculateThreatScore_score_eq_breakdown_sum
    (chunkAnalyses : List ChunkThreatAnalysis) (categoryBreakdown : CategoryCounts)
    (uniqueWords : List String) (chunksInvolved : Nat) :
    (calculateThreatScore chunkAnalyses categoryBreakdown uniqueWords chunksInvolved).score =
      (calculateThreatScore chunkAnalyses categoryBreakdown uniqueWords
        chunksInvolved).breakdown.violent_actions +
      (calculateThreatScore chunkAnalyses categoryBreakdown uniqueWords
        chunksInvolved).breakdown.weapons +
      (calculateThreatScore chunkAnalyses categoryBreakdown uniqueWords
        chunksInvolved).breakdown.events +
      (calculateThreatScore chunkAnalyses categoryBreakdown uniqueWords
        chunksInvolved).breakdown.targets +
      (calculateThreatScore chunkAnalyses categoryBreakdown uniqueWords
        chunksInvolved).breakdown.urgency +
      (calculateThreatScore chunkAnalyses categoryBreakdown uniqueWords
        chunksInvolved).breakdown.repetition_bonus := by
  simp only [calculateThreatScore]
  ring

/-- Claim C3: severity is a pure function of the score alone, scores 0 to 2
map to SAFE, 3 to 5 to SUSPICIOUS, 6 and above to HIGH_RISK, the bands
partition the naturals without gaps or overlaps, and the mapping is monotonic
non-decreasing. -/
theorem getSeverity_bands_partition_monotone (s : Nat) :
    (getSeverity s = .SAFE ↔ s ≤ 2) ∧
    (getSeverity s = .SUSPICIOUS ↔ 3 ≤ s ∧ s ≤ 5) ∧
    (getSeverity s = .HIGH_RISK ↔ 6 ≤ s) ∧
    (∀ t, s ≤ t → severityRank (getSeverity s) ≤ severityRank (getSeverity t)) := by
  refine ⟨?_, ?_, ?_, ?_⟩
  · rw [getSeverity_eq]; split_ifs <;> simp <;> omega
  · rw [getSeverity_eq]; split_ifs <;> simp <;> omega
  · rw [getSeverity_eq]; split_ifs <;> simp <;> omega
  · intro t h
    rw [getSeverity_eq, getSeverity_eq]
    split_ifs <;> simp [severityRank] <;> omega

/-- Claim C3 witness: the band and monotonicity facts evaluated at concrete
scores. -/
theorem getSeverity_bands_partition_monotone_witness :
    getSeverity 2 = .SAFE ∧ getSeverity 4 = .SUSPICIOUS ∧ getSeverity 7 = .HIGH_RISK ∧
    severityRank (getSeverity 2) ≤ severityRank (getSeverity 7) :=
  ⟨(getSeverity_bands_partition_monotone 2).1.mpr (by decide),
   (getSeverity_bands_partition_monotone 4).2.1.mpr (by decide),
   (getSeverity_bands_partition_monotone 7).2.2.1.mpr (by decide),
   (getSeverity_bands_partition_monotone 2).2.2.2 7 (by decide)⟩

/-- Claim C4: for every scorer input, the combined bonus field equals the
repetition bonus, floor of (total minus unique) over 2 when unique is positive
and total exceeds unique and zero otherwise, plus the spread bonus, floor of
chunksInvolved over 2 when chunksInvolved exceeds 2 and zero otherwise; the
final score is the weighted base score plus this combined bonus. -/
theorem calculateThreatScore_bonus_formula (chunkAnalyses : List ChunkThreatAnalysis)
    (categoryBreakdown : CategoryCounts) (uniqueWords : List String) (chunksInvolved : Nat) :
    ((calculateThreatScore chunkAnalyses categoryBreakdown uniqueWords
        chunksInvolved).breakdown.repetition_bonus =
      (if uniqueWords.length > 0 ∧
          (categoryBreakdown.violent_actions + categoryBreakdown.weapons +
            categoryBreakdown.events + categoryBreakdown.targets +
            categoryBreakdown.urgency) > uniqueWords.length then
        ((categoryBreakdown.violent_actions + categoryBreakdown.weapons +
          categoryBreakdown.events + categoryBreakdown.targets +
          categoryBreakdown.urgency) - uniqueWords.length) / 2
      else 0) +
      (if chunksInvolved > 2 then chunksInvolved / 2 else 0)) ∧
    (calculateThreatScore chunkAnalyses categoryBreakdown uniqueWords chunksInvolved).score =
      (categoryBreakdown.violent_actions * 2 + categoryBreakdown.weapons * 3 +
        categoryBreakdown.events * 2 + categoryBreakdown.targets * 2 +
        categoryBreakdown.urgency * 1) +
      ((calculateThreatScore chunkAnalyses categoryBreakdown uniqueWords
        chunksInvolved).breakdown.repetition_bonus) := by
  constructor
  · rfl
  · simp only [calculateThreatScore, CategoryCounts.get, CATEGORY_WEIGHTS]
    ring

/-- Claim C5: for every chunk and optional translation, the chunk analysis
score equals the sum of the fixed category weights over its matches, with
weapons 3, violent actions 2, events 2, targets 2, urgency 1, and hasThreats
holds exactly when the match list is non-empty; in particular a text with no
dictionary hits yields hasThreats false and score 0. -/
theorem detectThreatsInChunk_score_and_hasThreats (chunk : TranscriptChunk)
    (sourceText : String) (translatedText : Option String) :
    ((detectThreatsInChunk chunk sourceText translatedText).threatScore =
      ((detectThreatsInChunk chunk sourceText translatedText).matchList.map
        (fun m => chunkCategoryWeights m.category)).sum) ∧
    ((detectThreatsInChunk chunk sourceText translatedText).hasThreats = true ↔
      (detectThreatsInChunk chunk sourceText translatedText).matchList ≠ []) ∧
    ((detectThreatsInChunk chunk sourceText translatedText).matchList = [] →
      (detectThreatsInChunk chunk sourceText translatedText).hasThreats = false ∧
      (detectThreatsInChunk chunk sourceText translatedText).threatScore = 0) ∧
    chunkCategoryWeights .weapons = 3 ∧ chunkCategoryWeights .violent_actions = 2 ∧
    chunkCategoryWeights .events = 2 ∧ chunkCategoryWeights .targets = 2 ∧
    chunkCategoryWeights .urgency = 1 := by
  refine ⟨?_, ?_, ?_, rfl, rfl, rfl, rfl, rfl⟩
  · rw [detectThreatsInChunk_threatScore]
    exact calculateChunkThreatScore_eq_sum _
  · rw [detectThreatsInChunk_hasThreats]
    simp [List.length_pos]
  · intro h
    constructor
    · rw [detectThreatsInChunk_hasThreats, h]
      rfl
    · rw [detectThreatsInChunk_threatScore, h]
      rfl

/-- Claim C5 witness: the no-hit conjunct evaluated on a chunk whose text has
no dictionary hits. -/
theorem detectThreatsInChunk_score_and_hasThreats_witness :
    (detectThreatsInChunk safeChunk "hello friend" none).matchList = [] ∧
    (detectThreatsInChunk safeChunk "hello friend" none).hasThreats = false ∧
    (detectThreatsInChunk safeChunk "hello friend" none).threatScore = 0 :=
  ⟨by decide,
   ((detectThreatsInChunk_score_and_hasThreats safeChunk "hello friend" none).2.2.1
     (by decide)).1,
   ((detectThreatsInChunk_score_and_hasThreats safeChunk "hello friend" none).2.2.1
     (by decide)).2⟩

/-- Claim C6: the session aggregator is a pure fold: each per-category count
is the number of matches of that category across all chunks, the unique-word
collection is exactly the set of lowercased matched words, chunksInvolved
counts the chunks with hasThreats, allMatches is the concatenation of the
chunk match lists in input order, the empty input yields the all-zero
aggregate, and every match of a chunk analysis carries that chunk identifier. -/
theorem aggregateSessionMatches_pure_fold (analyses : List ChunkThreatAnalysis) :
    ((∀ cat, (aggregateSessionMatches analyses).categoryBreakdown.get cat =
       ((analyses.flatMap (fun a => a.matchList)).filter (fun m => m.category = cat)).length) ∧
     (∀ w, w ∈ (aggregateSessionMatches analyses).uniqueWords ↔
       w ∈ (analyses.flatMap (fun a => a.matchList)).map (fun m => lowerStr m.word)) ∧
     (aggregateSessionMatches analyses).uniqueWords.Nodup ∧
     (aggregateSessionMatches analyses).chunksInvolved =
       (analyses.filter (fun a => a.hasThreats)).length ∧
     (aggregateSessionMatches analyses).allMatches =
       analyses.flatMap (fun a => a.matchList) ∧
     (aggregateSessionMatches analyses).totalMatches =
       (analyses.flatMap (fun a => a.matchList)).length) ∧
    aggregateSessionMatches [] = ⟨0, CategoryCounts.zero, [], 0, []⟩ ∧
    (∀ (chunk : TranscriptChunk) (sourceText : String) (translatedText : Option String),
      ∀ m ∈ (detectThreatsInChunk chunk sourceText translatedText).matchList,
        m.chunkId = chunk.chunkId) := by
  refine ⟨⟨?_, ?_, ?_, ?_, ?_, ?_⟩, rfl, ?_⟩
  · intro cat
    show (List.foldl aggAddChunk ⟨CategoryCounts.zero, [], 0, []⟩ analyses).categoryBreakdown.get cat = _
    rw [foldl_aggAddChunk_counts]
    cases cat <;> simp [CategoryCounts.zero, CategoryCounts.get]
  · intro w
    show w ∈ (List.foldl aggAddChunk ⟨CategoryCounts.zero, [], 0, []⟩ analyses).uniqueWords ↔ _
    rw [foldl_aggAddChunk_unique_mem]
    simp
  · exact foldl_aggAddChunk_unique_nodup _ _ List.nodup_nil
  · show (List.foldl aggAddChunk ⟨CategoryCounts.zero, [], 0, []⟩ analyses).chunksInvolved = _
    rw [foldl_aggAddChunk_chunks]
    simp
  · show (List.foldl aggAddChunk ⟨CategoryCounts.zero, [], 0, []⟩ analyses).allMatches = _
    rw [foldl_aggAddChunk_all]
    rfl
  · show (List.foldl aggAddChunk ⟨CategoryCounts.zero, [], 0, []⟩ analyses).allMatches.length = _
    rw [foldl_aggAddChunk_all]
    rfl
  · intro chunk sourceText translatedText m hm
    unfold detectThreatsInChunk at hm
    simp only [List.mem_append] at hm
    rcases hm with hm | hm
    · simp only [List.mem_map] at hm
      obtain ⟨m0, _, rfl⟩ := hm
      rfl
    · rcases translatedText with _ | t
      · simp at hm
      · simp only at hm
        split at hm
        · simp only [List.mem_map] at hm
          obtain ⟨m0, _, rfl⟩ := hm
          rfl
        · simp at hm

/-- Claim C6 witness: the chunk-identifier conjunct evaluated on a concrete
chunk analysis. -/
theorem aggregateSessionMatches_pure_fold_witness :
    bombChunkMatch ∈ (detectThreatsInChunk demoChunk "bomb" none).matchList ∧
    bombChunkMatch.chunkId = demoChunk.chunkId :=
  ⟨by decide,
   (aggregateSessionMatches_pure_fold []).2.2 demoChunk "bomb" none bombChunkMatch (by decide)⟩

/-- Claim C7: when the transcript fetch returns an empty segment list the
orchestrator fails with the not-found error and the stored analysis state is
returned unchanged, with no partial record persisted. -/
theorem analyzeSessionThreats_empty_transcripts (sessionId : String) (env : OrchestratorEnv)
    (store : List ThreatAnalysisRecord) (h : env.transcripts = []) :
    analyzeSessionThreats sessionId env store =
      (Except.error "No transcripts found for this session", store) := by
  unfold analyzeSessionThreats
  rw [h]
  rfl

/-- Claim C7 witness: the empty-transcript failure evaluated on a concrete
environment. -/
theorem analyzeSessionThreats_empty_transcripts_witness :
    emptyEnv.transcripts = [] ∧
    analyzeSessionThreats "session-w7" emptyEnv [] =
      (Except.error "No transcripts found for this session", []) :=
  ⟨rfl, analyzeSessionThreats_empty_transcripts "session-w7" emptyEnv [] rfl⟩


/-- Claim C1 counterexample: on a session with a single weapons keyword the
persisted record has score 3 while the sum of the breakdown values stored in
that record, the raw per-category counts, is 1, so the score does not equal
the sum of the stored breakdown values. -/
theorem record_score_ne_stored_breakdown_sum :
    ((analyzeSessionThreats "session-1" demoEnv []).1.map
      (fun r => (r.threatScore, breakdownValuesSum r.categoryBreakdown))) =
        Except.ok (3, 1) ∧ (3 : Nat) ≠ 1 :=
  ⟨rfl, by decide⟩

/-- Claim C1 as amended: for every session whose analysis succeeds, the
persisted record carries the scorer output unchanged: its score equals the
scorer score, its stored breakdown holds the raw per-category counts of the
aggregate, and the score equals the fixed category weights times those stored
counts plus the combined bonus of the scorer breakdown; the explanation
generator never alters or recomputes the score. -/
theorem analyzeSessionThreats_score_consistency (sessionId : String)
    (env : OrchestratorEnv) (store : List ThreatAnalysisRecord)
    (h : env.transcripts ≠ []) :
    ∃ r newStore, analyzeSessionThreats sessionId env store = (Except.ok r, newStore) ∧
      r.threatScore =
        (calculateThreatScore
          (detectThreatsInSession env.transcripts (translationMapGet env.translations))
          (aggregateSessionMatches
            (detectThreatsInSession env.transcripts (translationMapGet env.translations))).categoryBreakdown
          (aggregateSessionMatches
            (detectThreatsInSession env.transcripts (translationMapGet env.translations))).uniqueWords
          (aggregateSessionMatches
            (detectThreatsInSession env.transcripts (translationMapGet env.translations))).chunksInvolved).score ∧
      r.categoryBreakdown =
        (aggregateSessionMatches
          (detectThreatsInSession env.transcripts (translationMapGet env.translations))).categoryBreakdown ∧
      r.threatScore =
        r.categoryBreakdown.violent_actions * 2 + r.categoryBreakdown.weapons * 3 +
        r.categoryBreakdown.events * 2 + r.categoryBreakdown.targets * 2 +
        r.categoryBreakdown.urgency * 1 +
        (calculateThreatScore
          (detectThreatsInSession env.transcripts (translationMapGet env.translations))
          (aggregateSessionMatches
            (detectThreatsInSession env.transcripts (translationMapGet env.translations))).categoryBreakdown
          (aggregateSessionMatches
            (detectThreatsInSession env.transcripts (translationMapGet env.translations))).uniqueWords
          (aggregateSessionMatches
            (detectThreatsInSession env.transcripts (translationMapGet env.translations))).chunksInvolved).breakdown.repetition_bonus := by
  have hlen : ¬ env.transcripts.length = 0 := by
    simpa [List.length_eq_zero] using h
  unfold analyzeSessionThreats
  rw [if_neg hlen]
  refine ⟨_, _, rfl, rfl, rfl, ?_⟩
  exact calcScore_weighted_bonus _ _ _ _

/-- Claim C1 witness: the amended consistency applied to a concrete
single-chunk session. -/
theorem analyzeSessionThreats_score_consistency_witness :
    demoEnv.transcripts ≠ [] ∧
    (∃ r newStore, analyzeSessionThreats "session-1" demoEnv [] = (Except.ok r, newStore) ∧
      r.threatScore =
        (calculateThreatScore
          (detectThreatsInSession demoEnv.transcripts (translationMapGet demoEnv.translations))
          (aggregateSessionMatches
            (detectThreatsInSession demoEnv.transcripts (translationMapGet demoEnv.translations))).categoryBreakdown
          (aggregateSessionMatches
            (detectThreatsInSession demoEnv.transcripts (translationMapGet demoEnv.translations))).uniqueWords
          (aggregateSessionMatches
            (detectThreatsInSession demoEnv.transcripts (translationMapGet demoEnv.translations))).chunksInvolved).score ∧
      r.categoryBreakdown =
        (aggregateSessionMatches
          (detectThreatsInSession demoEnv.transcripts (translationMapGet demoEnv.translations))).categoryBreakdown ∧
      r.threatScore =
        r.categoryBreakdown.violent_actions * 2 + r.categoryBreakdown.weapons * 3 +
        r.categoryBreakdown.events * 2 + r.categoryBreakdown.targets * 2 +
        r.categoryBreakdown.urgency * 1 +
        (calculateThreatScore
          (detectThreatsInSession demoEnv.transcripts (translationMapGet demoEnv.translations))
          (aggregateSessionMatches
            (detectThreatsInSession demoEnv.transcripts (translationMapGet demoEnv.translations))).categoryBreakdown
          (aggregateSessionMatches
            (detectThreatsInSession demoEnv.transcripts (translationMapGet demoEnv.translations))).uniqueWords
          (aggregateSessionMatches
            (detectThreatsInSession demoEnv.transcripts (translationMapGet demoEnv.translations))).chunksInvolved).breakdown.repetition_bonus) :=
  ⟨by decide, analyzeSessionThreats_score_consistency "session-1" demoEnv [] (by decide)⟩

/-- Claim C8: every word in the triggered keywords of a persisted analysis
originates from a match of that analysis and appears, compared
case-insensitively, in the dictionary resolved for the language tag carried
by that match, the translated-language marker resolving to the base-language
dictionary. -/
theorem triggeredKeywords_roundtrip (sessionId : String) (env : OrchestratorEnv)
    (store : List ThreatAnalysisRecord) (r : ThreatAnalysisRecord)
    (newStore : List ThreatAnalysisRecord)
    (hok : analyzeSessionThreats sessionId env store = (Except.ok r, newStore))
    (kw : TriggeredKeyword) (hkw : kw ∈ r.triggeredKeywords) :
    ∃ m ∈ (aggregateSessionMatches
        (detectThreatsInSession env.transcripts (translationMapGet env.translations))).allMatches,
      kw.word = lowerStr m.word ∧
      ∃ cat, ∃ entry ∈ (getThreatDictionary m.language).get cat, lowerStr entry = kw.word := by
  unfold analyzeSessionThreats at hok
  split at hok
  · exact absurd (congrArg Prod.fst hok) (by simp)
  · simp only [Prod.mk.injEq, Except.ok.injEq] at hok
    obtain ⟨hr, hs⟩ := hok
    subst hs
    set analyses := detectThreatsInSession env.transcripts (translationMapGet env.translations)
      with hA
    set agg := aggregateSessionMatches analyses with hG
    set ts := calculateThreatScore analyses agg.categoryBreakdown agg.uniqueWords
      agg.chunksInvolved with hT
    rw [← hr] at hkw
    have hkw2 : kw ∈ (generateThreatExplanation ts.severity ts.score agg.allMatches
        agg.categoryBreakdown agg.chunksInvolved).triggeredKeywords := hkw
    obtain ⟨m, hm, hkey⟩ := explanation_triggered_key ts.severity ts.score agg.allMatches
      agg.categoryBreakdown agg.chunksInvolved kw hkw2
    obtain ⟨cat, hw⟩ := mem_sessionAllMatches_dict _ _ _ hm
    exact ⟨m, hm, hkey, cat, m.word, hw, hkey.symm⟩

/-- Claim C8 witness: the round-trip applied to a concrete analysis whose
triggered keywords contain the word bomb. -/
theorem triggeredKeywords_roundtrip_witness :
    ∃ r newStore, analyzeSessionThreats "session-1" demoEnv [] = (Except.ok r, newStore) ∧
      ∃ kw ∈ r.triggeredKeywords,
        ∃ m ∈ (aggregateSessionMatches
            (detectThreatsInSession demoEnv.transcripts
              (translationMapGet demoEnv.translations))).allMatches,
          kw.word = lowerStr m.word ∧
          ∃ cat, ∃ entry ∈ (getThreatDictionary m.language).get cat,
            lowerStr entry = kw.word := by
  refine ⟨_, _, rfl, ⟨"bomb", "Weapon", 1⟩, ?_, ?_⟩
  · decide
  · exact triggeredKeywords_roundtrip "session-1" demoEnv [] _ _ rfl _ (by decide)

/-- Claim C9: no match returned by the keyword matcher has a matched word
containing whitespace, so multi-word dictionary phrases such as blow up can
never be emitted as matches. -/
theorem matchKeywords_no_whitespace_words (text language : String) (m : ThreatMatch)
    (hm : m ∈ matchKeywords text language) :
    (m.word.data.any isWs) = false ∧ m.word ≠ "blow up" := by
  unfold matchKeywords at hm
  simp only [List.mem_flatMap] at hm
  obtain ⟨p, hp, hm⟩ := hm
  obtain ⟨i, token⟩ := p
  have htok : token ∈ tokenizeText text := by
    obtain ⟨hlt, htokeq⟩ := List.mem_enum hp
    rw [htokeq]
    exact List.getElem_mem _
  unfold tokenMatchesAt at hm
  simp only [List.mem_filterMap] at hm
  obtain ⟨cat, hcat, hsome⟩ := hm
  rw [Option.map_eq_some'] at hsome
  obtain ⟨w, hfind, rfl⟩ := hsome
  have hw_mem := List.mem_of_find?_eq_some hfind
  have hw_norm := List.find?_some hfind
  simp only [decide_eq_true_eq] at hw_norm
  have htok_ws := tokenizeText_no_ws text token htok
  have hnorm_ws := normalizeText_no_ws token htok_ws
  rw [← hw_norm] at hnorm_ws
  have hword_ws : ∀ c ∈ w.data, isWs c = false := by
    rcases dictionaries_entry_ws _ (getThreatDictionary_cases language) cat w hw_mem with h | h
    · exact h
    · obtain ⟨c, hc, hcw⟩ := h
      rw [hnorm_ws c hc] at hcw
      exact absurd hcw (by simp)
  constructor
  · show (w.data.any isWs) = false
    simp only [List.any_eq_false]
    intro c hc
    simp [hword_ws c hc]
  · show w ≠ "blow up"
    intro hEq
    have := hword_ws ' ' (by rw [hEq]; decide)
    simp [isWs, wsChars] at this

/-- Claim C9 witness: the whitespace-freeness applied to the concrete bomb
match. -/
theorem matchKeywords_no_whitespace_words_witness :
    bombMatch ∈ matchKeywords "bomb" "english" ∧
    (bombMatch.word.data.any isWs) = false ∧ bombMatch.word ≠ "blow up" :=
  ⟨by decide,
   (matchKeywords_no_whitespace_words "bomb" "english" bombMatch (by decide)).1,
   (matchKeywords_no_whitespace_words "bomb" "english" bombMatch (by decide)).2⟩

/-- Claim C10: per token occurrence the matcher emits at most one match per
category, namely exactly one when some dictionary entry of that category
normalizes to the normalized token, its word being the first such entry; a
word present in several category lists, such as attack in both violent
actions and events of the English dictionary, yields one match per containing
category and contributes the sum of those category weights to the chunk
score. -/
theorem matchKeywords_token_category_multiplicity :
    (∀ (language : String) (tokens : List String) (index : Nat) (token : String)
        (cat : ThreatCategory),
      ((tokenMatchesAt (getThreatDictionary language) language tokens index token).filter
          (fun m => m.category = cat)).length =
        (if ((getThreatDictionary language).get cat).any
            (fun word => normalizeText word = normalizeText token) then 1 else 0)) ∧
    (∀ (language : String) (tokens : List String) (index : Nat) (token : String)
        (m : ThreatMatch),
      m ∈ tokenMatchesAt (getThreatDictionary language) language tokens index token →
      ((getThreatDictionary language).get m.category).find?
        (fun word => normalizeText word = normalizeText token) = some m.word) ∧
    ((matchKeywords "attack" "english").map (fun m => m.category) =
      [.violent_actions, .events]) ∧
    calculateChunkThreatScore (matchKeywords "attack" "english") = 4 ∧
    (aggregateSessionMatches
        [detectThreatsInChunk attackChunk "attack" none]).categoryBreakdown =
      ⟨1, 0, 1, 0, 0⟩ := by
  refine ⟨?_, ?_, rfl, rfl, rfl⟩
  · intro language tokens index token cat
    unfold tokenMatchesAt
    rw [filterMap_filter_category _ ?hf getThreatCategories (by decide) cat
      (by cases cat <;> decide)]
    case hf =>
      intro c m hcm
      rw [Option.map_eq_some'] at hcm
      obtain ⟨w, hfind, rfl⟩ := hcm
      rfl
    rw [Option.isSome_map', find?_isSome_eq_any]
  · intro language tokens index token m hm
    unfold tokenMatchesAt at hm
    simp only [List.mem_filterMap] at hm
    obtain ⟨cat, hcat, hsome⟩ := hm
    rw [Option.map_eq_some'] at hsome
    obtain ⟨w, hfind, rfl⟩ := hsome
    exact hfind

/-- Claim C10 witness: the first-entry property applied to the concrete
attack token. -/
theorem matchKeywords_token_category_multiplicity_witness :
    attackTokenMatch ∈
      tokenMatchesAt (getThreatDictionary "english") "english" ["attack"] 0 "attack" ∧
    ((getThreatDictionary "english").get attackTokenMatch.category).find?
      (fun word => normalizeText word = normalizeText "attack") = some attackTokenMatch.word :=
  ⟨by decide,
   matchKeywords_token_category_multiplicity.2.1 "english" ["attack"] 0 "attack"
     attackTokenMatch (by decide)⟩

end ThreatPipeline
